import Mathlib

/-!
Shallow embedding of the allocation / ledger / price logic of the
`backend-rockefeller-finance` repository.

The repository contains two implementation variants of the API:
`src/server.js` (the "Main" definitions below) and the middle variant of
`src/unnamed/part_000` (lines 663-1211; the unsuffixed definitions below).
Monetary amounts (JavaScript numbers) are modelled as rationals `ℚ`, so
the arithmetic of the embedding is exact.  Each route handler is modelled
as a pure function on the `Ledger` state: a handler that answers an error
status before mutating the document is an `Except.error`, which leaves the
caller's state untouched, exactly as the HTTP handler does.
-/

/-- The five allocation categories of the user schema
(`src/server.js` lines 54-60). -/
inductive Category
  | essentials
  | savings
  | selfInvestment
  | charity
  | emergency
deriving DecidableEq, Repr

/-- The allocation map of the user schema: one non-negative-by-intent
balance per category (`src/server.js` lines 54-60). -/
structure Allocations where
  essentials : ℚ
  savings : ℚ
  selfInvestment : ℚ
  charity : ℚ
  emergency : ℚ
deriving DecidableEq, Repr

/-- An expense record (`src/server.js` lines 47-53). -/
structure Expense where
  amount : ℚ
  category : String
  purpose : String
  location : String
  date : String
deriving DecidableEq, Repr

/-- An investment record (`src/server.js` lines 61-66). -/
structure Investment where
  amount : ℚ
  date : String
  price : ℚ
  type : String
deriving DecidableEq, Repr

/-- The per-user ledger aggregate (`src/server.js` lines 43-67). -/
structure Ledger where
  initialBudget : ℚ
  expenses : List Expense
  allocations : Allocations
  investmentHistory : List Investment
deriving DecidableEq, Repr

/-- Error outcomes of the mutating handlers.  `validationError` is the
express-validator 400 rejection (`isFloat min 0` / `notEmpty`);
the remaining constructors are the handler-level 400 rejections. -/
inductive Err
  | validationError
  | unknownCategory
  | insufficientAllocation
  | insufficientBudget
  | portfolioRisk
  | indexOutOfRange
deriving DecidableEq, Repr

/-- The category-label dictionary repeated at each call site
(`src/server.js` lines 198-204 and 237-243): maps the five display
labels to allocation keys, everything else to `none`. -/
def categoryKey (category : String) : Option Category :=
  if category = "Tiêu dùng thiết yếu" then some .essentials
  else if category = "Tiết kiệm bắt buộc" then some .savings
  else if category = "Đầu tư bản thân" then some .selfInvestment
  else if category = "Từ thiện" then some .charity
  else if category = "Dự phòng linh hoạt" then some .emergency
  else none

/-- `user.allocations[categoryKey]` read access. -/
def Allocations.get (a : Allocations) : Category → ℚ
  | .essentials => a.essentials
  | .savings => a.savings
  | .selfInvestment => a.selfInvestment
  | .charity => a.charity
  | .emergency => a.emergency

/-- `user.allocations[categoryKey] += amount` / `-= amount` (with a
negative `q` for subtraction). -/
def Allocations.add (a : Allocations) (k : Category) (q : ℚ) : Allocations :=
  match k with
  | .essentials => { a with essentials := a.essentials + q }
  | .savings => { a with savings := a.savings + q }
  | .selfInvestment => { a with selfInvestment := a.selfInvestment + q }
  | .charity => { a with charity := a.charity + q }
  | .emergency => { a with emergency := a.emergency + q }

/-- `Object.values(user.allocations).reduce((sum, val) => sum + val, 0)`
(`src/server.js` line 337). -/
def Allocations.total (a : Allocations) : ℚ :=
  a.essentials + a.savings + a.selfInvestment + a.charity + a.emergency

/-- Sum of the amounts of a list of expenses. -/
def sumExpenseAmounts (es : List Expense) : ℚ :=
  (es.map Expense.amount).sum

/-- `user.investmentHistory.reduce((sum, inv) => sum + inv.amount, 0)`
(`src/unnamed/part_000` line 971). -/
def sumInvestmentAmounts (invs : List Investment) : ℚ :=
  (invs.map Investment.amount).sum

/-- `POST /api/initial-budget` (`src/server.js` lines 140-163, identical
in `src/unnamed/part_000` lines 746-773).  The validator
`isFloat(min 0)` rejects negative amounts; on acceptance the amount is
added to `initialBudget` and split over the allocations with the fixed
weights 0.5 / 0.2 / 0.15 / 0.05 / 0.1. -/
def injectBudget (l : Ledger) (newBudget : ℚ) : Except Err Ledger :=
  if newBudget < 0 then .error .validationError
  else .ok { l with
    initialBudget := l.initialBudget + newBudget,
    allocations := {
      essentials := l.allocations.essentials + newBudget * 0.5,
      savings := l.allocations.savings + newBudget * 0.2,
      selfInvestment := l.allocations.selfInvestment + newBudget * 0.15,
      charity := l.allocations.charity + newBudget * 0.05,
      emergency := l.allocations.emergency + newBudget * 0.1 } }

/-- `POST /api/expenses` (`src/server.js` lines 185-227, identical in
`src/unnamed/part_000` lines 795-848).  `today` stands for
`new Date().toLocaleDateString()`, the clock value at the request. -/
def recordExpense (l : Ledger) (amount : ℚ)
    (category purpose location : String) (date : Option String)
    (today : String) : Except Err Ledger :=
  if amount < 0 ∨ category = "" ∨ purpose = "" ∨ location = "" then
    .error .validationError
  else
    match categoryKey category with
    | none => .error .unknownCategory
    | some k =>
      if amount > l.allocations.get k then .error .insufficientAllocation
      else .ok { l with
        expenses := l.expenses ++
          [{ amount := amount, category := category, purpose := purpose,
             location := location, date := date.getD today }],
        initialBudget := l.initialBudget - amount,
        allocations := l.allocations.add k (-amount) }

/-- `DELETE /api/expenses/:index` (`src/server.js` lines 229-253,
identical in `src/unnamed/part_000` lines 850-876).  Out-of-range
indices are rejected; otherwise the deleted expense's amount is added
back to `initialBudget` and to its category's allocation (when its label
still resolves), and the record is removed. -/
def deleteExpense (l : Ledger) (index : ℤ) : Except Err Ledger :=
  if index < 0 then .error .indexOutOfRange
  else
    match l.expenses.get? index.toNat with
    | none => .error .indexOutOfRange
    | some deletedExpense =>
      .ok { l with
        initialBudget := l.initialBudget + deletedExpense.amount,
        allocations :=
          match categoryKey deletedExpense.category with
          | some k => l.allocations.add k deletedExpense.amount
          | none => l.allocations,
        expenses := l.expenses.eraseIdx index.toNat }

/-- `POST /api/allocations` (`src/server.js` lines 265-284): each field
must pass `isFloat(min 0)`; the allocation map is then replaced wholesale
by the request body, with no reconciliation of `initialBudget`. -/
def setAllocations (l : Ledger) (m : Allocations) : Except Err Ledger :=
  if m.essentials < 0 ∨ m.savings < 0 ∨ m.selfInvestment < 0 ∨
      m.charity < 0 ∨ m.emergency < 0 then
    .error .validationError
  else .ok { l with allocations := m }

/-- `POST /api/investments` in `src/unnamed/part_000` lines 956-1004:
checks the amount against `selfInvestment + emergency`, checks the 10%
portfolio-concentration bound against `sum(allocations) +
sum(investment amounts)`, then appends the record and deducts the amount
from `selfInvestment`. -/
def recordInvestment (l : Ledger) (amount price : ℚ) (type today : String) :
    Except Err Ledger :=
  if amount < 0 ∨ price < 0 ∨ type = "" then .error .validationError
  else
    let investmentBudget := l.allocations.selfInvestment + l.allocations.emergency
    let totalPortfolio := l.allocations.total + sumInvestmentAmounts l.investmentHistory
    if amount > investmentBudget then .error .insufficientBudget
    else if totalPortfolio > 0 ∧ amount / totalPortfolio > 0.1 then
      .error .portfolioRisk
    else .ok { l with
      investmentHistory := l.investmentHistory ++
        [{ amount := amount, date := today, price := price, type := type }],
      allocations := { l.allocations with
        selfInvestment := l.allocations.selfInvestment - amount } }

/-- `POST /api/investments` in `src/server.js` lines 326-360: the same
admission checks except that its `totalPortfolio` is
`sum(allocations)` only (line 337), and on acceptance it appends the
record WITHOUT touching any allocation balance. -/
def recordInvestmentMain (l : Ledger) (amount price : ℚ) (type today : String) :
    Except Err Ledger :=
  if amount < 0 ∨ price < 0 ∨ type = "" then .error .validationError
  else
    let investmentBudget := l.allocations.selfInvestment + l.allocations.emergency
    let totalPortfolio := l.allocations.total
    if amount > investmentBudget then .error .insufficientBudget
    else if totalPortfolio > 0 ∧ amount / totalPortfolio > 0.1 then
      .error .portfolioRisk
    else .ok { l with
      investmentHistory := l.investmentHistory ++
        [{ amount := amount, date := today, price := price, type := type }] }

/-- `DELETE /api/investments/:index` in `src/unnamed/part_000` lines
1006-1024: bounds-checks the index, adds the deleted amount back to
`selfInvestment`, and removes the record. -/
def deleteInvestment (l : Ledger) (index : ℤ) : Except Err Ledger :=
  if index < 0 then .error .indexOutOfRange
  else
    match l.investmentHistory.get? index.toNat with
    | none => .error .indexOutOfRange
    | some deletedInvestment =>
      .ok { l with
        allocations := { l.allocations with
          selfInvestment := l.allocations.selfInvestment + deletedInvestment.amount },
        investmentHistory := l.investmentHistory.eraseIdx index.toNat }

/-- `DELETE /api/investments/:index` in `src/server.js` lines 362-376:
bounds-checks and removes the record, but does NOT restore any
allocation balance. -/
def deleteInvestmentMain (l : Ledger) (index : ℤ) : Except Err Ledger :=
  if index < 0 then .error .indexOutOfRange
  else
    match l.investmentHistory.get? index.toNat with
    | none => .error .indexOutOfRange
    | some _ =>
      .ok { l with investmentHistory := l.investmentHistory.eraseIdx index.toNat }

/-- The all-zero ledger a user starts with (schema defaults,
`src/server.js` lines 43-67). -/
def ledger0 : Ledger :=
  { initialBudget := 0, expenses := [],
    allocations := { essentials := 0, savings := 0, selfInvestment := 0,
                     charity := 0, emergency := 0 },
    investmentHistory := [] }

/-- Outcome environment for one evaluation of the price route: the final
result of each upstream source's `fetchWithRetry` call (`some p` when the
source yields a price, `none` when it fails), and whether a
CoinMarketCap API key is configured (`src/unnamed/part_000` line 1059). -/
structure PriceSources where
  coingecko : Option ℚ
  cmcKey : Bool
  coinmarketcap : Option ℚ
  binance : Option ℚ

/-- Response of the part_000 price route: HTTP status, price field,
whether the degraded `warning` field is present, and how many upstream
sources were called. -/
structure PriceResult where
  status : ℕ
  price : ℚ
  degraded : Bool
  upstreamCalls : ℕ
deriving DecidableEq, Repr

/-- The hardcoded fallback price (`src/unnamed/part_000` line 1027). -/
def fallbackPrice : ℚ := 117783.89

/-- `GET /api/bitcoin-price` in `src/unnamed/part_000` lines 1026-1105:
cache hit returns the cached value at once; otherwise CoinGecko, then
CoinMarketCap (only when a key is configured), then Binance are tried in
order; when every source fails the fixed fallback price is returned with
the `warning` field set, still as a 200 response.  `cache` is the fresh
`bitcoin_price` cache entry, if any (an unavailable or stale cache is
`none`, since the handler treats cache errors as a miss). -/
def getCurrentPrice (cache : Option ℚ) (s : PriceSources) : PriceResult :=
  match cache with
  | some v => { status := 200, price := v, degraded := false, upstreamCalls := 0 }
  | none =>
    match s.coingecko with
    | some price => { status := 200, price := price, degraded := false, upstreamCalls := 1 }
    | none =>
      if s.cmcKey then
        match s.coinmarketcap with
        | some price => { status := 200, price := price, degraded := false, upstreamCalls := 2 }
        | none =>
          match s.binance with
          | some price => { status := 200, price := price, degraded := false, upstreamCalls := 3 }
          | none => { status := 200, price := fallbackPrice, degraded := true, upstreamCalls := 3 }
      else
        match s.binance with
        | some price => { status := 200, price := price, degraded := false, upstreamCalls := 2 }
        | none => { status := 200, price := fallbackPrice, degraded := true, upstreamCalls := 2 }

/-- Response of the `src/server.js` price route: either a 200 with a
price or the 500 error body of its catch branch. -/
inductive MainPriceResponse
  | ok (price : ℚ)
  | errorResponse
deriving DecidableEq, Repr

/-- `GET /api/bitcoin-price` in `src/server.js` lines 378-388: it never
reads the price cache (the `cache` argument, the state of the shared
`bitcoin_price` entry, is ignored), always calls its single upstream
source, and answers a 500 error body when that call fails.  The second
component counts upstream calls made. -/
def bitcoinPriceMain (_cache : Option ℚ) (coingecko : Option ℚ) :
    MainPriceResponse × ℕ :=
  match coingecko with
  | some price => (.ok price, 1)
  | none => (.errorResponse, 1)

/-- One mutating request against the ledger.  For `expense` and `invest`
the trailing `today` argument is the clock value read by the handler. -/
inductive Op
  | inject (amount : ℚ)
  | expense (amount : ℚ) (category purpose location : String)
      (date : Option String) (today : String)
  | delExpense (index : ℤ)
  | invest (amount price : ℚ) (type today : String)
  | delInvest (index : ℤ)

/-- Whether the operation is a `POST /api/investments` request. -/
def Op.isInvest : Op → Bool
  | .invest _ _ _ _ => true
  | _ => false

/-- A rejected request leaves the stored ledger untouched: the handlers
answer their 400 before any mutation, so an `Except.error` keeps the
previous state. -/
def applyOp (l : Ledger) : Op → Ledger
  | .inject a => ((injectBudget l a).toOption).getD l
  | .expense a c p loc d t => ((recordExpense l a c p loc d t).toOption).getD l
  | .delExpense i => ((deleteExpense l i).toOption).getD l
  | .invest a pr ty t => ((recordInvestment l a pr ty t).toOption).getD l
  | .delInvest i => ((deleteInvestment l i).toOption).getD l

/-- Run a sequence of requests against the ledger, keeping the state of
any rejected request unchanged. -/
def run (l : Ledger) : List Op → Ledger
  | [] => l
  | op :: ops => run (applyOp l op) ops

/-- The amount an operation actually injects: the amount of an accepted
`POST /api/initial-budget` request, and `0` otherwise (a negative amount
is rejected by validation and injects nothing). -/
def injectedOf : Op → ℚ
  | .inject a => if a < 0 then 0 else a
  | _ => 0

/-- Total amount injected by a sequence of requests. -/
def totalInjected (ops : List Op) : ℚ :=
  (ops.map injectedOf).sum

/-- Well-formedness the schema and validators maintain: every stored
expense has a non-negative amount and a category label that resolves,
and every stored investment has a non-negative amount. -/
def LedgerWF (l : Ledger) : Prop :=
  (∀ e ∈ l.expenses, 0 ≤ e.amount ∧ (categoryKey e.category).isSome = true) ∧
  (∀ inv ∈ l.investmentHistory, 0 ≤ inv.amount)

instance (l : Ledger) : Decidable (LedgerWF l) := by
  unfold LedgerWF; infer_instance

/-- All five allocation balances are non-negative. -/
def NonnegAlloc (a : Allocations) : Prop :=
  0 ≤ a.essentials ∧ 0 ≤ a.savings ∧ 0 ≤ a.selfInvestment ∧
  0 ≤ a.charity ∧ 0 ≤ a.emergency

instance (a : Allocations) : Decidable (NonnegAlloc a) := by
  unfold NonnegAlloc; infer_instance

/-! ### Helper lemmas -/

lemma sumExpenseAmounts_nil : sumExpenseAmounts [] = 0 := rfl

lemma sumExpenseAmounts_cons (e : Expense) (es : List Expense) :
    sumExpenseAmounts (e :: es) = e.amount + sumExpenseAmounts es := by
  simp [sumExpenseAmounts]

lemma sumExpenseAmounts_append (es : List Expense) (e : Expense) :
    sumExpenseAmounts (es ++ [e]) = sumExpenseAmounts es + e.amount := by
  simp [sumExpenseAmounts]

lemma sumInvestmentAmounts_append (invs : List Investment) (inv : Investment) :
    sumInvestmentAmounts (invs ++ [inv]) = sumInvestmentAmounts invs + inv.amount := by
  simp [sumInvestmentAmounts]

lemma sumExpenseAmounts_eraseIdx (es : List Expense) (i : ℕ) (e : Expense)
    (h : es.get? i = some e) :
    sumExpenseAmounts (es.eraseIdx i) = sumExpenseAmounts es - e.amount := by
  induction es generalizing i with
  | nil => simp at h
  | cons a as ih =>
    cases i with
    | zero =>
      simp only [List.get?] at h
      cases h
      simp [List.eraseIdx, sumExpenseAmounts_cons]
    | succ n =>
      simp only [List.get?] at h
      rw [List.eraseIdx, sumExpenseAmounts_cons, sumExpenseAmounts_cons, ih n h]
      ring

lemma sumInvestmentAmounts_eraseIdx (invs : List Investment) (i : ℕ) (inv : Investment)
    (h : invs.get? i = some inv) :
    sumInvestmentAmounts (invs.eraseIdx i) = sumInvestmentAmounts invs - inv.amount := by
  induction invs generalizing i with
  | nil => simp at h
  | cons a as ih =>
    cases i with
    | zero =>
      simp only [List.get?] at h
      cases h
      simp [List.eraseIdx, sumInvestmentAmounts]
    | succ n =>
      simp only [List.get?] at h
      rw [List.eraseIdx]
      simp only [sumInvestmentAmounts, List.map_cons, List.sum_cons] at ih ⊢
      rw [ih n h]
      ring

lemma mem_of_mem_eraseIdx {α : Type} {es : List α} {i : ℕ} {x : α}
    (h : x ∈ es.eraseIdx i) : x ∈ es := by
  induction es generalizing i with
  | nil => simp [List.eraseIdx] at h
  | cons a as ih =>
    cases i with
    | zero =>
      rw [List.eraseIdx] at h
      exact List.mem_cons_of_mem a h
    | succ n =>
      rw [List.eraseIdx] at h
      rcases List.mem_cons.mp h with h' | h'
      · exact h' ▸ List.mem_cons_self a as
      · exact List.mem_cons_of_mem a (ih h')

lemma eraseIdx_concat {α : Type} (es : List α) (e : α) :
    (es ++ [e]).eraseIdx es.length = es := by
  induction es with
  | nil => rfl
  | cons a as ih => simp [List.eraseIdx, ih]

lemma get?_concat_length {α : Type} (es : List α) (e : α) :
    (es ++ [e]).get? es.length = some e := by
  induction es with
  | nil => rfl
  | cons a as ih => simp [List.get?, ih]

lemma Allocations.total_add (a : Allocations) (k : Category) (q : ℚ) :
    (a.add k q).total = a.total + q := by
  cases k <;> simp [Allocations.add, Allocations.total] <;> ring

lemma Allocations.get_nonneg {a : Allocations} (h : NonnegAlloc a) (k : Category) :
    0 ≤ a.get k := by
  cases k
  · exact h.1
  · exact h.2.1
  · exact h.2.2.1
  · exact h.2.2.2.1
  · exact h.2.2.2.2

lemma NonnegAlloc.add {a : Allocations} (h : NonnegAlloc a) (k : Category) {q : ℚ}
    (hq : 0 ≤ q) : NonnegAlloc (a.add k q) := by
  cases k
  · exact ⟨add_nonneg h.1 hq, h.2.1, h.2.2.1, h.2.2.2.1, h.2.2.2.2⟩
  · exact ⟨h.1, add_nonneg h.2.1 hq, h.2.2.1, h.2.2.2.1, h.2.2.2.2⟩
  · exact ⟨h.1, h.2.1, add_nonneg h.2.2.1 hq, h.2.2.2.1, h.2.2.2.2⟩
  · exact ⟨h.1, h.2.1, h.2.2.1, add_nonneg h.2.2.2.1 hq, h.2.2.2.2⟩
  · exact ⟨h.1, h.2.1, h.2.2.1, h.2.2.2.1, add_nonneg h.2.2.2.2 hq⟩

lemma NonnegAlloc.sub {a : Allocations} (h : NonnegAlloc a) {k : Category} {q : ℚ}
    (hle : q ≤ a.get k) : NonnegAlloc (a.add k (-q)) := by
  cases k
  · refine ⟨?_, h.2.1, h.2.2.1, h.2.2.2.1, h.2.2.2.2⟩
    have h' : q ≤ a.essentials := hle
    show 0 ≤ a.essentials + -q
    linarith
  · refine ⟨h.1, ?_, h.2.2.1, h.2.2.2.1, h.2.2.2.2⟩
    have h' : q ≤ a.savings := hle
    show 0 ≤ a.savings + -q
    linarith
  · refine ⟨h.1, h.2.1, ?_, h.2.2.2.1, h.2.2.2.2⟩
    have h' : q ≤ a.selfInvestment := hle
    show 0 ≤ a.selfInvestment + -q
    linarith
  · refine ⟨h.1, h.2.1, h.2.2.1, ?_, h.2.2.2.2⟩
    have h' : q ≤ a.charity := hle
    show 0 ≤ a.charity + -q
    linarith
  · refine ⟨h.1, h.2.1, h.2.2.1, h.2.2.2.1, ?_⟩
    have h' : q ≤ a.emergency := hle
    show 0 ≤ a.emergency + -q
    linarith

/-- Inversion for an accepted budget injection. -/
lemma injectBudget_ok {l l2 : Ledger} {a : ℚ} (h : injectBudget l a = .ok l2) :
    0 ≤ a ∧
    l2 = { l with
      initialBudget := l.initialBudget + a,
      allocations := {
        essentials := l.allocations.essentials + a * 0.5,
        savings := l.allocations.savings + a * 0.2,
        selfInvestment := l.allocations.selfInvestment + a * 0.15,
        charity := l.allocations.charity + a * 0.05,
        emergency := l.allocations.emergency + a * 0.1 } } := by
  unfold injectBudget at h
  split at h
  · exact absurd h (by simp)
  · next hc =>
    refine ⟨le_of_not_lt hc, ?_⟩
    injection h with h
    exact h.symm

/-- Inversion for an accepted expense. -/
lemma recordExpense_ok {l l2 : Ledger} {amount : ℚ}
    {category purpose location : String} {date : Option String} {today : String}
    (h : recordExpense l amount category purpose location date today = .ok l2) :
    ∃ k, categoryKey category = some k ∧
      0 ≤ amount ∧ amount ≤ l.allocations.get k ∧
      l2 = { l with
        expenses := l.expenses ++
          [{ amount := amount, category := category, purpose := purpose,
             location := location, date := date.getD today }],
        initialBudget := l.initialBudget - amount,
        allocations := l.allocations.add k (-amount) } := by
  unfold recordExpense at h
  split at h
  · exact absurd h (by simp)
  · next hval =>
    have hamt : 0 ≤ amount := le_of_not_lt (fun hlt => hval (Or.inl hlt))
    split at h
    · exact absurd h (by simp)
    · next k hk =>
      split at h
      · exact absurd h (by simp)
      · next hle =>
        refine ⟨k, hk, hamt, le_of_not_lt hle, ?_⟩
        injection h with h
        exact h.symm

/-- Inversion for an accepted expense deletion. -/
lemma deleteExpense_ok {l l2 : Ledger} {i : ℤ} (h : deleteExpense l i = .ok l2) :
    ∃ e, ¬ i < 0 ∧ l.expenses.get? i.toNat = some e ∧
      l2 = { l with
        initialBudget := l.initialBudget + e.amount,
        allocations :=
          match categoryKey e.category with
          | some k => l.allocations.add k e.amount
          | none => l.allocations,
        expenses := l.expenses.eraseIdx i.toNat } := by
  unfold deleteExpense at h
  split at h
  · exact absurd h (by simp)
  · next hneg =>
    split at h
    · exact absurd h (by simp)
    · next e he =>
      refine ⟨e, hneg, he, ?_⟩
      injection h with h
      exact h.symm

/-- Inversion for an accepted investment (part_000 variant). -/
lemma recordInvestment_ok {l l2 : Ledger} {amount price : ℚ} {ty today : String}
    (h : recordInvestment l amount price ty today = .ok l2) :
    0 ≤ amount ∧ 0 ≤ price ∧
    amount ≤ l.allocations.selfInvestment + l.allocations.emergency ∧
    l2 = { l with
      investmentHistory := l.investmentHistory ++
        [{ amount := amount, date := today, price := price, type := ty }],
      allocations := { l.allocations with
        selfInvestment := l.allocations.selfInvestment - amount } } := by
  unfold recordInvestment at h
  dsimp only at h
  split at h
  · exact absurd h (by simp)
  · next hval =>
    have hamt : 0 ≤ amount := le_of_not_lt (fun hlt => hval (Or.inl hlt))
    have hpr : 0 ≤ price := le_of_not_lt (fun hlt => hval (Or.inr (Or.inl hlt)))
    split at h
    · exact absurd h (by simp)
    · next hbudget =>
      split at h
      · exact absurd h (by simp)
      · refine ⟨hamt, hpr, le_of_not_lt hbudget, ?_⟩
        injection h with h
        exact h.symm

/-- Inversion for an accepted investment deletion (part_000 variant). -/
lemma deleteInvestment_ok {l l2 : Ledger} {i : ℤ}
    (h : deleteInvestment l i = .ok l2) :
    ∃ inv, ¬ i < 0 ∧ l.investmentHistory.get? i.toNat = some inv ∧
      l2 = { l with
        allocations := { l.allocations with
          selfInvestment := l.allocations.selfInvestment + inv.amount },
        investmentHistory := l.investmentHistory.eraseIdx i.toNat } := by
  unfold deleteInvestment at h
  split at h
  · exact absurd h (by simp)
  · next hneg =>
    split at h
    · exact absurd h (by simp)
    · next inv hinv =>
      refine ⟨inv, hneg, hinv, ?_⟩
      injection h with h
      exact h.symm

/-- Inversion for an accepted investment in the `src/server.js` variant. -/
lemma recordInvestmentMain_ok {l l2 : Ledger} {amount price : ℚ} {ty today : String}
    (h : recordInvestmentMain l amount price ty today = .ok l2) :
    l2 = { l with
      investmentHistory := l.investmentHistory ++
        [{ amount := amount, date := today, price := price, type := ty }] } := by
  unfold recordInvestmentMain at h
  dsimp only at h
  split at h
  · exact absurd h (by simp)
  · split at h
    · exact absurd h (by simp)
    · split at h
      · exact absurd h (by simp)
      · injection h with h
        exact h.symm

/-- Inversion for an accepted investment deletion in the `src/server.js`
variant. -/
lemma deleteInvestmentMain_ok {l l2 : Ledger} {i : ℤ}
    (h : deleteInvestmentMain l i = .ok l2) :
    l2 = { l with investmentHistory := l.investmentHistory.eraseIdx i.toNat } := by
  unfold deleteInvestmentMain at h
  split at h
  · exact absurd h (by simp)
  · split at h
    · exact absurd h (by simp)
    · injection h with h
      exact h.symm

lemma mem_of_get? {α : Type} {es : List α} {i : ℕ} {x : α}
    (h : es.get? i = some x) : x ∈ es := by
  induction es generalizing i with
  | nil => simp at h
  | cons a as ih =>
    cases i with
    | zero =>
      simp only [List.get?] at h
      injection h with h
      subst h
      exact List.mem_cons_self _ _
    | succ n =>
      simp only [List.get?] at h
      exact List.mem_cons_of_mem a (ih h)

/-- Every request handler preserves the stored well-formedness: amounts
stored in the ledger are non-negative and stored expense labels
resolve. -/
lemma applyOp_wf (l : Ledger) (op : Op) (hwf : LedgerWF l) :
    LedgerWF (applyOp l op) := by
  cases op with
  | inject a =>
    simp only [applyOp]
    cases hres : injectBudget l a with
    | error e => exact hwf
    | ok l2 =>
      obtain ⟨-, rfl⟩ := injectBudget_ok hres
      exact hwf
  | expense amount category purpose location date today =>
    simp only [applyOp]
    cases hres : recordExpense l amount category purpose location date today with
    | error e => exact hwf
    | ok l2 =>
      obtain ⟨k, hk, hamt, -, rfl⟩ := recordExpense_ok hres
      refine ⟨?_, hwf.2⟩
      intro e he
      rcases List.mem_append.mp he with he' | he'
      · exact hwf.1 e he'
      · rcases List.mem_singleton.mp he' with rfl
        exact ⟨hamt, by simp [hk]⟩
  | delExpense i =>
    simp only [applyOp]
    cases hres : deleteExpense l i with
    | error e => exact hwf
    | ok l2 =>
      obtain ⟨e, -, -, rfl⟩ := deleteExpense_ok hres
      exact ⟨fun e' he' => hwf.1 e' (mem_of_mem_eraseIdx he'), hwf.2⟩
  | invest amount price ty today =>
    simp only [applyOp]
    cases hres : recordInvestment l amount price ty today with
    | error e => exact hwf
    | ok l2 =>
      obtain ⟨hamt, -, -, rfl⟩ := recordInvestment_ok hres
      refine ⟨hwf.1, ?_⟩
      intro inv hinv
      rcases List.mem_append.mp hinv with h' | h'
      · exact hwf.2 inv h'
      · rcases List.mem_singleton.mp h' with rfl
        exact hamt
  | delInvest i =>
    simp only [applyOp]
    cases hres : deleteInvestment l i with
    | error e => exact hwf
    | ok l2 =>
      obtain ⟨inv, -, -, rfl⟩ := deleteInvestment_ok hres
      exact ⟨hwf.1, fun inv' hinv' => hwf.2 inv' (mem_of_mem_eraseIdx hinv')⟩

/-- The four non-investment request kinds keep all five allocation
balances non-negative. -/
lemma applyOp_nonneg (l : Ledger) (op : Op) (hwf : LedgerWF l)
    (hnn : NonnegAlloc l.allocations) (hni : op.isInvest = false) :
    NonnegAlloc (applyOp l op).allocations := by
  cases op with
  | inject a =>
    simp only [applyOp]
    cases hres : injectBudget l a with
    | error e => exact hnn
    | ok l2 =>
      obtain ⟨ha, rfl⟩ := injectBudget_ok hres
      exact ⟨add_nonneg hnn.1 (by positivity), add_nonneg hnn.2.1 (by positivity),
        add_nonneg hnn.2.2.1 (by positivity), add_nonneg hnn.2.2.2.1 (by positivity),
        add_nonneg hnn.2.2.2.2 (by positivity)⟩
  | expense amount category purpose location date today =>
    simp only [applyOp]
    cases hres : recordExpense l amount category purpose location date today with
    | error e => exact hnn
    | ok l2 =>
      obtain ⟨k, -, -, hle, rfl⟩ := recordExpense_ok hres
      exact hnn.sub hle
  | delExpense i =>
    simp only [applyOp]
    cases hres : deleteExpense l i with
    | error e => exact hnn
    | ok l2 =>
      obtain ⟨e, -, he, rfl⟩ := deleteExpense_ok hres
      have hamt : 0 ≤ e.amount := (hwf.1 e (mem_of_get? he)).1
      cases hck : categoryKey e.category with
      | none => simpa [hck] using hnn
      | some k => simpa [hck] using hnn.add k hamt
  | invest amount price ty today => simp [Op.isInvest] at hni
  | delInvest i =>
    simp only [applyOp]
    cases hres : deleteInvestment l i with
    | error e => exact hnn
    | ok l2 =>
      obtain ⟨inv, -, hinv, rfl⟩ := deleteInvestment_ok hres
      have hamt : 0 ≤ inv.amount := hwf.2 inv (mem_of_get? hinv)
      exact ⟨hnn.1, hnn.2.1, add_nonneg hnn.2.2.1 hamt, hnn.2.2.2.1, hnn.2.2.2.2⟩

/-- What each accepted request does to the two running balances: the sum
of the allocations tracks `injected - active expenses - active
investments`, and `initialBudget` tracks `injected - active expenses`. -/
lemma applyOp_conserv (l : Ledger) (op : Op) (I : ℚ) (hwf : LedgerWF l)
    (h1 : l.allocations.total
      = I - sumExpenseAmounts l.expenses - sumInvestmentAmounts l.investmentHistory)
    (h2 : l.initialBudget = I - sumExpenseAmounts l.expenses) :
    (applyOp l op).allocations.total
        = (I + injectedOf op) - sumExpenseAmounts (applyOp l op).expenses
          - sumInvestmentAmounts (applyOp l op).investmentHistory ∧
    (applyOp l op).initialBudget
        = (I + injectedOf op) - sumExpenseAmounts (applyOp l op).expenses := by
  cases op with
  | inject a =>
    simp only [applyOp, injectedOf]
    cases hres : injectBudget l a with
    | error e =>
      simp only [Except.toOption, Option.getD_none]
      have ha : a < 0 := by
        by_contra hna
        rw [injectBudget, if_neg hna] at hres
        exact absurd hres (by simp)
      rw [if_pos ha]
      exact ⟨by rw [h1]; ring, by rw [h2]; ring⟩
    | ok l2 =>
      obtain ⟨ha, rfl⟩ := injectBudget_ok hres
      simp only [Except.toOption, Option.getD_some]
      rw [if_neg (not_lt.mpr ha)]
      simp only [Allocations.total] at h1 ⊢
      exact ⟨by rw [show l.allocations.essentials + a * 0.5 + (l.allocations.savings + a * 0.2) +
          (l.allocations.selfInvestment + a * 0.15) + (l.allocations.charity + a * 0.05) +
          (l.allocations.emergency + a * 0.1)
        = l.allocations.essentials + l.allocations.savings + l.allocations.selfInvestment +
          l.allocations.charity + l.allocations.emergency + a by ring, h1]; ring,
        by rw [h2]; ring⟩
  | expense amount category purpose location date today =>
    simp only [applyOp, injectedOf]
    cases hres : recordExpense l amount category purpose location date today with
    | error e =>
      simp only [Except.toOption, Option.getD_none]
      exact ⟨by rw [h1]; ring, by rw [h2]; ring⟩
    | ok l2 =>
      obtain ⟨k, -, -, -, rfl⟩ := recordExpense_ok hres
      simp only [Except.toOption, Option.getD_some]
      rw [Allocations.total_add, sumExpenseAmounts_append, h1, h2]
      exact ⟨by ring, by ring⟩
  | delExpense i =>
    simp only [applyOp, injectedOf]
    cases hres : deleteExpense l i with
    | error e =>
      simp only [Except.toOption, Option.getD_none]
      exact ⟨by rw [h1]; ring, by rw [h2]; ring⟩
    | ok l2 =>
      obtain ⟨e, -, he, rfl⟩ := deleteExpense_ok hres
      simp only [Except.toOption, Option.getD_some]
      have hsome : (categoryKey e.category).isSome = true :=
        (hwf.1 e (mem_of_get? he)).2
      obtain ⟨k, hk⟩ := Option.isSome_iff_exists.mp hsome
      have herase := sumExpenseAmounts_eraseIdx l.expenses i.toNat e he
      rw [hk]
      dsimp only
      rw [Allocations.total_add, herase, h1, h2]
      exact ⟨by ring, by ring⟩
  | invest amount price ty today =>
    simp only [applyOp, injectedOf]
    cases hres : recordInvestment l amount price ty today with
    | error e =>
      simp only [Except.toOption, Option.getD_none]
      exact ⟨by rw [h1]; ring, by rw [h2]; ring⟩
    | ok l2 =>
      obtain ⟨-, -, -, rfl⟩ := recordInvestment_ok hres
      simp only [Except.toOption, Option.getD_some]
      rw [sumInvestmentAmounts_append]
      simp only [Allocations.total] at h1 ⊢
      constructor
      · rw [show l.allocations.essentials + l.allocations.savings +
            (l.allocations.selfInvestment - amount) + l.allocations.charity +
            l.allocations.emergency
          = l.allocations.essentials + l.allocations.savings + l.allocations.selfInvestment +
            l.allocations.charity + l.allocations.emergency - amount by ring, h1]
        ring
      · rw [h2]; ring
  | delInvest i =>
    simp only [applyOp, injectedOf]
    cases hres : deleteInvestment l i with
    | error e =>
      simp only [Except.toOption, Option.getD_none]
      exact ⟨by rw [h1]; ring, by rw [h2]; ring⟩
    | ok l2 =>
      obtain ⟨inv, -, hinv, rfl⟩ := deleteInvestment_ok hres
      simp only [Except.toOption, Option.getD_some]
      have herase := sumInvestmentAmounts_eraseIdx l.investmentHistory i.toNat inv hinv
      rw [herase]
      simp only [Allocations.total] at h1 ⊢
      constructor
      · rw [show l.allocations.essentials + l.allocations.savings +
            (l.allocations.selfInvestment + inv.amount) + l.allocations.charity +
            l.allocations.emergency
          = l.allocations.essentials + l.allocations.savings + l.allocations.selfInvestment +
            l.allocations.charity + l.allocations.emergency + inv.amount by ring, h1]
        ring
      · rw [h2]; ring

lemma run_wf (ops : List Op) : ∀ l, LedgerWF l → LedgerWF (run l ops) := by
  induction ops with
  | nil => exact fun l h => h
  | cons op ops ih => exact fun l h => ih _ (applyOp_wf l op h)

lemma run_nonneg (ops : List Op) : ∀ l, LedgerWF l → NonnegAlloc l.allocations →
    (∀ op ∈ ops, op.isInvest = false) → NonnegAlloc (run l ops).allocations := by
  induction ops with
  | nil => exact fun l _ h _ => h
  | cons op ops ih =>
    intro l hwf hnn hall
    exact ih _ (applyOp_wf l op hwf)
      (applyOp_nonneg l op hwf hnn (hall op (List.mem_cons_self _ _)))
      (fun o ho => hall o (List.mem_cons_of_mem _ ho))

lemma run_conserv (ops : List Op) : ∀ l I, LedgerWF l →
    l.allocations.total
      = I - sumExpenseAmounts l.expenses - sumInvestmentAmounts l.investmentHistory →
    l.initialBudget = I - sumExpenseAmounts l.expenses →
    (run l ops).allocations.total
        = (I + totalInjected ops) - sumExpenseAmounts (run l ops).expenses
          - sumInvestmentAmounts (run l ops).investmentHistory ∧
    (run l ops).initialBudget
        = (I + totalInjected ops) - sumExpenseAmounts (run l ops).expenses := by
  induction ops with
  | nil =>
    intro l I hwf h1 h2
    simpa [run, totalInjected] using ⟨h1, h2⟩
  | cons op ops ih =>
    intro l I hwf h1 h2
    have hstep := applyOp_conserv l op I hwf h1 h2
    have hrec := ih (applyOp l op) (I + injectedOf op)
      (applyOp_wf l op hwf) hstep.1 hstep.2
    rw [show I + totalInjected (op :: ops) = I + injectedOf op + totalInjected ops by
      simp [totalInjected]; ring]
    exact hrec

lemma Allocations.get_add_self (a : Allocations) (k : Category) (q : ℚ) :
    (a.add k q).get k = a.get k + q := by
  cases k <;> rfl

lemma Allocations.add_neg_cancel (a : Allocations) (k : Category) (q : ℚ) :
    (a.add k (-q)).add k q = a := by
  cases k <;> simp [Allocations.add, neg_add_cancel_right]

/-! ### Claims -/

/-- C1, as stated, is false on the code: after `InjectBudget(1000000)` on
the all-zero ledger, `initialBudget + sum(allocations)` is `2000000`
while `initial value + injections - active expenses - active
investments` is `1000000` — the two sides differ by the full `1000000`,
far beyond any rounding epsilon, because an injection adds its amount to
`initialBudget` AND in full to the allocations. -/
theorem conservation_claim_cex :
    (run ledger0 [Op.inject 1000000]).initialBudget
        + (run ledger0 [Op.inject 1000000]).allocations.total
      - (ledger0.initialBudget + ledger0.allocations.total
          + totalInjected [Op.inject 1000000]
          - sumExpenseAmounts (run ledger0 [Op.inject 1000000]).expenses
          - sumInvestmentAmounts (run ledger0 [Op.inject 1000000]).investmentHistory)
      = 1000000 := by
  norm_num [run, applyOp, injectBudget, ledger0, totalInjected, injectedOf,
    Allocations.total, sumExpenseAmounts, sumInvestmentAmounts, Except.toOption]

/-- C1 (amended): for every sequence of InjectBudget / RecordExpense /
DeleteExpense / RecordInvestment / DeleteInvestment requests starting
from the all-zero ledger, at every point the sum of the five allocation
balances equals the sum of injected amounts minus the amounts of the
expenses still in the list minus the amounts of the investments still in
the list, and `initialBudget` equals the injected sum minus the active
expense amounts (investments never touch `initialBudget`); the
conservation holds exactly, but not in the combined
`initialBudget + sum(allocations)` form of the claim. -/
theorem conservation_run (ops : List Op) :
    (run ledger0 ops).allocations.total
        = totalInjected ops - sumExpenseAmounts (run ledger0 ops).expenses
          - sumInvestmentAmounts (run ledger0 ops).investmentHistory ∧
    (run ledger0 ops).initialBudget
        = totalInjected ops - sumExpenseAmounts (run ledger0 ops).expenses := by
  have h := run_conserv ops ledger0 0
    (by exact ⟨fun e he => absurd he (List.not_mem_nil e),
               fun inv hinv => absurd hinv (List.not_mem_nil inv)⟩)
    (by simp [ledger0, Allocations.total, sumExpenseAmounts, sumInvestmentAmounts])
    (by simp [ledger0, sumExpenseAmounts])
  simpa using h

/-- C2, as stated, is false on the code: from the all-zero ledger,
`InjectBudget(1000)` followed by two `RecordInvestment(100, 1, ...)`
requests — each accepted by the handler — leaves
`allocations.selfInvestment = -50 < 0`: the admission check compares the
amount against `selfInvestment + emergency` but the deduction hits
`selfInvestment` alone. -/
theorem allocation_nonneg_cex :
    ((injectBudget ledger0 1000).bind
        (fun l1 => recordInvestment l1 100 1 "Bitcoin ETF" "d")).bind
      (fun l2 => recordInvestment l2 100 1 "Bitcoin ETF" "d")
    = .ok { initialBudget := 1000, expenses := [],
            allocations := { essentials := 500, savings := 200, selfInvestment := -50,
                             charity := 50, emergency := 100 },
            investmentHistory :=
              [{ amount := 100, date := "d", price := 1, type := "Bitcoin ETF" },
               { amount := 100, date := "d", price := 1, type := "Bitcoin ETF" }] }
    ∧ (-50 : ℚ) < 0 := by
  constructor
  · norm_num +decide [injectBudget, recordInvestment, ledger0, Except.bind,
      Allocations.total, sumInvestmentAmounts]
  · norm_num

/-- C2 (amended): starting from any well-formed ledger whose five
allocation balances are non-negative, no sequence of InjectBudget /
RecordExpense / DeleteExpense / DeleteInvestment requests — whether
accepted or rejected (a rejected request leaves the state unchanged by
construction of `run`) — can drive any allocation balance below zero;
an accepted RecordInvestment, however, can (see the counterexample),
since its check compares against `selfInvestment + emergency` while
deducting from `selfInvestment` only. -/
theorem allocation_nonneg_run (l : Ledger) (hwf : LedgerWF l)
    (hnn : NonnegAlloc l.allocations) (ops : List Op)
    (hops : ∀ op ∈ ops, op.isInvest = false) :
    LedgerWF (run l ops) ∧ NonnegAlloc (run l ops).allocations :=
  ⟨run_wf ops l hwf, run_nonneg ops l hwf hnn hops⟩

/-- Witness for C2 (amended) at a concrete ledger and request list. -/
theorem allocation_nonneg_run_witness :
    LedgerWF (run ledger0 [Op.inject 1000,
      Op.expense 200 "Tiêu dùng thiết yếu" "p" "q" none "d", Op.delExpense 0]) ∧
    NonnegAlloc (run ledger0 [Op.inject 1000,
      Op.expense 200 "Tiêu dùng thiết yếu" "p" "q" none "d", Op.delExpense 0]).allocations :=
  allocation_nonneg_run ledger0
    ⟨fun e he => absurd he (List.not_mem_nil e),
     fun inv hinv => absurd hinv (List.not_mem_nil inv)⟩
    ⟨le_refl 0, le_refl 0, le_refl 0, le_refl 0, le_refl 0⟩
    [Op.inject 1000, Op.expense 200 "Tiêu dùng thiết yếu" "p" "q" none "d",
     Op.delExpense 0]
    (by simp [Op.isInvest])

/-- C3: an accepted `RecordExpense` followed immediately by
`DeleteExpense` at the index where the expense was appended (the length
of the previous expense list) restores the ledger — `initialBudget`, all
five allocation balances, the expense list, and the investment list —
exactly to its state before the insertion. -/
theorem recordExpense_deleteExpense_inverse {l l2 : Ledger} {amount : ℚ}
    {category purpose location : String} {date : Option String} {today : String}
    (h : recordExpense l amount category purpose location date today = .ok l2) :
    deleteExpense l2 (l.expenses.length : ℤ) = .ok l := by
  obtain ⟨k, hk, -, -, rfl⟩ := recordExpense_ok h
  unfold deleteExpense
  rw [if_neg (not_lt.mpr (Int.natCast_nonneg _))]
  simp only [Int.toNat_natCast]
  rw [get?_concat_length]
  dsimp only
  rw [hk]
  dsimp only
  rw [eraseIdx_concat, Allocations.add_neg_cancel]
  norm_num

/-- A ledger right before the sample expense of the C3 witness. -/
def c3Before : Ledger :=
  { initialBudget := 100, expenses := [],
    allocations := { essentials := 100, savings := 0, selfInvestment := 0,
                     charity := 0, emergency := 0 },
    investmentHistory := [] }

/-- The same ledger right after recording a 40-unit essentials expense. -/
def c3After : Ledger :=
  { initialBudget := 60,
    expenses := [{ amount := 40, category := "Tiêu dùng thiết yếu",
                   purpose := "p", location := "q", date := "d" }],
    allocations := { essentials := 60, savings := 0, selfInvestment := 0,
                     charity := 0, emergency := 0 },
    investmentHistory := [] }

/-- Witness for C3 at a concrete ledger and expense. -/
theorem recordExpense_deleteExpense_inverse_witness :
    deleteExpense c3After ((c3Before.expenses.length : ℕ) : ℤ) = .ok c3Before :=
  @recordExpense_deleteExpense_inverse c3Before c3After 40 "Tiêu dùng thiết yếu"
    "p" "q" none "d"
    (by norm_num +decide [recordExpense, c3Before, c3After, categoryKey,
      Allocations.get, Allocations.add])

/-- A ledger holding 100 in `selfInvestment` and nothing else; both
investment-route variants accept a 10-unit purchase on it. -/
def portfolioLedger : Ledger :=
  { initialBudget := 0, expenses := [],
    allocations := { essentials := 0, savings := 0, selfInvestment := 100,
                     charity := 0, emergency := 0 },
    investmentHistory := [] }

/-- C4, as stated, is false for the `src/server.js` handler: it accepts
`RecordInvestment(10, 5, "Bitcoin ETF")` on `portfolioLedger`, appends
the record, but leaves `allocations.selfInvestment` at `100` instead of
decreasing it to `90`. -/
theorem recordInvestmentMain_cex :
    (recordInvestmentMain portfolioLedger 10 5 "Bitcoin ETF" "d").map
        (fun l => l.allocations.selfInvestment) = .ok 100
    ∧ (100 : ℚ) ≠ 100 - 10 := by
  constructor
  · norm_num +decide [recordInvestmentMain, portfolioLedger, Except.map,
      Allocations.total]
  · norm_num

/-- C4 (amended): in the `src/unnamed/part_000` handler every accepted
`RecordInvestment(amount, price, type)` appends the new Investment
record to the investment list and decreases
`allocations.selfInvestment` by exactly `amount`, leaving
`initialBudget`, the expense list, and the other four allocation
balances unchanged; the `src/server.js` handler instead appends without
touching any allocation (see the counterexample). -/
theorem recordInvestment_appends_and_deducts {l l2 : Ledger} {amount price : ℚ}
    {ty today : String} (h : recordInvestment l amount price ty today = .ok l2) :
    l2.investmentHistory = l.investmentHistory ++
      [{ amount := amount, date := today, price := price, type := ty }] ∧
    l2.allocations.selfInvestment = l.allocations.selfInvestment - amount ∧
    l2.initialBudget = l.initialBudget ∧
    l2.expenses = l.expenses ∧
    l2.allocations.essentials = l.allocations.essentials ∧
    l2.allocations.savings = l.allocations.savings ∧
    l2.allocations.charity = l.allocations.charity ∧
    l2.allocations.emergency = l.allocations.emergency := by
  obtain ⟨-, -, -, rfl⟩ := recordInvestment_ok h
  exact ⟨rfl, rfl, rfl, rfl, rfl, rfl, rfl, rfl⟩

/-- Witness for C4 (amended) at a concrete accepted investment. -/
theorem recordInvestment_appends_and_deducts_witness :
    ({ initialBudget := 0, expenses := [],
       allocations := { essentials := 0, savings := 0, selfInvestment := 90,
                        charity := 0, emergency := 0 },
       investmentHistory := [{ amount := 10, date := "d", price := 5,
                               type := "Bitcoin ETF" }] } : Ledger).investmentHistory
      = portfolioLedger.investmentHistory ++
        [{ amount := 10, date := "d", price := 5, type := "Bitcoin ETF" }] ∧
    ({ initialBudget := 0, expenses := [],
       allocations := { essentials := 0, savings := 0, selfInvestment := 90,
                        charity := 0, emergency := 0 },
       investmentHistory := [{ amount := 10, date := "d", price := 5,
                               type := "Bitcoin ETF" }] } : Ledger).allocations.selfInvestment
      = portfolioLedger.allocations.selfInvestment - 10 ∧
    (0 : ℚ) = portfolioLedger.initialBudget ∧
    ([] : List Expense) = portfolioLedger.expenses ∧
    (0 : ℚ) = portfolioLedger.allocations.essentials ∧
    (0 : ℚ) = portfolioLedger.allocations.savings ∧
    (0 : ℚ) = portfolioLedger.allocations.charity ∧
    (0 : ℚ) = portfolioLedger.allocations.emergency :=
  @recordInvestment_appends_and_deducts portfolioLedger _ 10 5 "Bitcoin ETF" "d"
    (by norm_num +decide [recordInvestment, portfolioLedger, Allocations.total,
      sumInvestmentAmounts])

/-- A ledger with a single 100-unit investment and all balances zero. -/
def oneInvestmentLedger : Ledger :=
  { initialBudget := 0, expenses := [],
    allocations := { essentials := 0, savings := 0, selfInvestment := 0,
                     charity := 0, emergency := 0 },
    investmentHistory := [{ amount := 100, date := "d", price := 1, type := "Gold" }] }

/-- C5, as stated, is false for the `src/server.js` handler: deleting
the only investment (amount 100) of `oneInvestmentLedger` succeeds but
leaves `allocations.selfInvestment` at `0` instead of increasing it by
the deleted amount to `100`. -/
theorem deleteInvestmentMain_cex :
    (deleteInvestmentMain oneInvestmentLedger 0).map
        (fun l => l.allocations.selfInvestment) = .ok 0
    ∧ (0 : ℚ) ≠ 0 + 100 := by
  constructor
  · rfl
  · norm_num

/-- C5 (amended): in the `src/unnamed/part_000` handler,
`DeleteInvestment(index)` fails with `IndexOutOfRange` whenever `index`
is not in `[0, length)`, and for a valid index it removes the investment
at that index and increases `allocations.selfInvestment` by exactly that
investment's amount; the `src/server.js` handler removes the record
without restoring any allocation (see the counterexample). -/
theorem deleteInvestment_spec (l : Ledger) (i : ℤ) :
    ((i < 0 ∨ (l.investmentHistory.length : ℤ) ≤ i) →
      deleteInvestment l i = .error .indexOutOfRange) ∧
    (∀ inv, 0 ≤ i → l.investmentHistory.get? i.toNat = some inv →
      deleteInvestment l i = .ok { l with
        allocations := { l.allocations with
          selfInvestment := l.allocations.selfInvestment + inv.amount },
        investmentHistory := l.investmentHistory.eraseIdx i.toNat }) := by
  constructor
  · intro hi
    unfold deleteInvestment
    rcases lt_or_le i 0 with hneg | hpos
    · rw [if_pos hneg]
    · rw [if_neg (not_lt.mpr hpos)]
      have hlen : (l.investmentHistory.length : ℤ) ≤ i := by
        rcases hi with hi | hi
        · exact absurd hi (not_lt.mpr hpos)
        · exact hi
      have hnone : l.investmentHistory.get? i.toNat = none :=
        List.get?_eq_none.mpr (by omega)
      rw [hnone]
  · intro inv h0 hsome
    unfold deleteInvestment
    rw [if_neg (not_lt.mpr h0), hsome]

/-- Witness for C5 (amended): both branches at concrete inputs. -/
theorem deleteInvestment_spec_witness :
    deleteInvestment oneInvestmentLedger 5 = .error .indexOutOfRange ∧
    deleteInvestment oneInvestmentLedger 0 = .ok { oneInvestmentLedger with
      allocations := { oneInvestmentLedger.allocations with
        selfInvestment := oneInvestmentLedger.allocations.selfInvestment + 100 },
      investmentHistory := [] } :=
  ⟨(deleteInvestment_spec oneInvestmentLedger 5).1
      (Or.inr (by norm_num [oneInvestmentLedger])),
   (deleteInvestment_spec oneInvestmentLedger 0).2
      { amount := 100, date := "d", price := 1, type := "Gold" }
      (by norm_num) rfl⟩

/-- C6, as stated, is false on the code: the validator `isFloat(min 0)`
accepts an amount of exactly `0`, so `InjectBudget(0)` succeeds (as a
no-op) instead of failing, although `0 ≤ 0`. -/
theorem injectBudget_zero_cex :
    injectBudget ledger0 0 = .ok ledger0 := by
  norm_num [injectBudget, ledger0]

/-- C6 (amended): `InjectBudget(amount)` is rejected by validation
exactly when `amount < 0` (so `amount = 0` is accepted as a no-op, not
rejected); for every `amount ≥ 0` it increases `initialBudget` by the
amount and each allocation balance by the amount times its fixed weight
(Essentials 0.50, Savings 0.20, SelfInvestment 0.15, Charity 0.05,
Emergency 0.10). -/
theorem injectBudget_spec (l : Ledger) (a : ℚ) :
    (a < 0 → injectBudget l a = .error .validationError) ∧
    (0 ≤ a → injectBudget l a = .ok { l with
      initialBudget := l.initialBudget + a,
      allocations := {
        essentials := l.allocations.essentials + a * 0.5,
        savings := l.allocations.savings + a * 0.2,
        selfInvestment := l.allocations.selfInvestment + a * 0.15,
        charity := l.allocations.charity + a * 0.05,
        emergency := l.allocations.emergency + a * 0.1 } }) := by
  constructor
  · intro ha
    unfold injectBudget
    rw [if_pos ha]
  · intro ha
    unfold injectBudget
    rw [if_neg (not_lt.mpr ha)]

/-- Witness for C6 (amended): a rejected negative injection and the
accepted scenario injection of 1,000,000. -/
theorem injectBudget_spec_witness :
    injectBudget ledger0 (-1) = .error .validationError ∧
    injectBudget ledger0 1000000 = .ok { ledger0 with
      initialBudget := ledger0.initialBudget + 1000000,
      allocations := {
        essentials := ledger0.allocations.essentials + 1000000 * 0.5,
        savings := ledger0.allocations.savings + 1000000 * 0.2,
        selfInvestment := ledger0.allocations.selfInvestment + 1000000 * 0.15,
        charity := ledger0.allocations.charity + 1000000 * 0.05,
        emergency := ledger0.allocations.emergency + 1000000 * 0.1 } } :=
  ⟨(injectBudget_spec ledger0 (-1)).1 (by norm_num),
   (injectBudget_spec ledger0 1000000).2 (by norm_num)⟩

/-- C7, as stated, is false for the `src/server.js` price route: it has
no fallback at all, so when its single upstream source fails it answers
the 500 error body rather than a degraded fallback price. -/
theorem bitcoinPriceMain_error_cex :
    (bitcoinPriceMain none none).1 = MainPriceResponse.errorResponse := rfl

/-- C7 (amended): in the `src/unnamed/part_000` price route, when the
cache misses and all upstream sources fail, the response is still a 200
carrying the fixed fallback price `117783.89` together with the
`warning` field (the degraded flag, distinct from the price itself);
`getCurrentPrice` is a total function, so this path cannot throw.  The
`src/server.js` route instead answers a 500 error response when its
upstream fails (see the counterexample). -/
theorem getCurrentPrice_fallback (s : PriceSources) (hg : s.coingecko = none)
    (hc : s.coinmarketcap = none) (hb : s.binance = none) :
    (getCurrentPrice none s).status = 200 ∧
    (getCurrentPrice none s).price = fallbackPrice ∧
    (getCurrentPrice none s).degraded = true := by
  cases hk : s.cmcKey <;> simp [getCurrentPrice, hg, hc, hb, hk]

/-- Witness for C7 (amended) with a configured CoinMarketCap key. -/
theorem getCurrentPrice_fallback_witness :
    (getCurrentPrice none ⟨none, true, none, none⟩).status = 200 ∧
    (getCurrentPrice none ⟨none, true, none, none⟩).price = fallbackPrice ∧
    (getCurrentPrice none ⟨none, true, none, none⟩).degraded = true :=
  getCurrentPrice_fallback ⟨none, true, none, none⟩ rfl rfl rfl

/-- C8, as stated, is false for the `src/server.js` price route: it
never consults the cache, so even with a fresh `bitcoin_price` entry of
50000 it makes one upstream call and returns the upstream value 60000
rather than the cached one. -/
theorem bitcoinPriceMain_ignores_cache_cex :
    bitcoinPriceMain (some 50000) (some 60000) = (.ok 60000, 1) ∧
    (60000 : ℚ) ≠ 50000 ∧ (1 : ℕ) ≠ 0 := by
  refine ⟨rfl, by norm_num, by norm_num⟩

/-- C8 (amended): in the `src/unnamed/part_000` price route, whenever a
fresh cache entry `v` exists for `bitcoin_price`, the response is a 200
carrying exactly `v`, not degraded, with zero upstream calls — and it is
literally the same for every configuration of the upstream sources.  The
`src/server.js` route ignores the cache entirely (see the
counterexample). -/
theorem getCurrentPrice_cache_hit (v : ℚ) (s : PriceSources) :
    getCurrentPrice (some v) s
      = { status := 200, price := v, degraded := false, upstreamCalls := 0 } := rfl

/-- C9: `SetAllocations` with non-negative values replaces the
allocation map wholesale and leaves `initialBudget`, the expense list,
and the investment list unchanged — no reconciliation of
`initialBudget` against the new allocation sum happens. -/
theorem setAllocations_spec (l : Ledger) (m : Allocations)
    (h1 : 0 ≤ m.essentials) (h2 : 0 ≤ m.savings) (h3 : 0 ≤ m.selfInvestment)
    (h4 : 0 ≤ m.charity) (h5 : 0 ≤ m.emergency) :
    setAllocations l m = .ok { l with allocations := m } := by
  unfold setAllocations
  rw [if_neg]
  push_neg
  exact ⟨h1, h2, h3, h4, h5⟩

/-- Witness for C9: an override that desynchronizes `initialBudget`
from the allocation sum is accepted and touches nothing else. -/
theorem setAllocations_spec_witness :
    setAllocations c3Before { essentials := 7, savings := 0, selfInvestment := 0,
                              charity := 0, emergency := 0 }
      = .ok { c3Before with
          allocations := { essentials := 7, savings := 0, selfInvestment := 0,
                           charity := 0, emergency := 0 } } :=
  setAllocations_spec c3Before
    { essentials := 7, savings := 0, selfInvestment := 0, charity := 0, emergency := 0 }
    (by norm_num) (by norm_num) (by norm_num) (by norm_num) (by norm_num)

/-- C10: on a ledger with non-negative allocation balances, a
`RecordExpense` whose amount equals the resolved category's balance is
accepted — the insufficiency check is the strict comparison
`amount > allocations[category]` — and afterwards that balance is
exactly zero. -/
theorem recordExpense_exact_balance (l : Ledger)
    (category purpose location : String) (k : Category)
    (date : Option String) (today : String)
    (hk : categoryKey category = some k) (hnn : NonnegAlloc l.allocations)
    (hp : purpose ≠ "") (hloc : location ≠ "") :
    recordExpense l (l.allocations.get k) category purpose location date today
      = .ok { l with
          expenses := l.expenses ++
            [{ amount := l.allocations.get k, category := category,
               purpose := purpose, location := location, date := date.getD today }],
          initialBudget := l.initialBudget - l.allocations.get k,
          allocations := l.allocations.add k (-(l.allocations.get k)) } ∧
    (l.allocations.add k (-(l.allocations.get k))).get k = 0 := by
  have hamt : 0 ≤ l.allocations.get k := Allocations.get_nonneg hnn k
  have hcat : ¬ category = "" := by
    intro hcat
    rw [hcat] at hk
    simp [categoryKey] at hk
  constructor
  · unfold recordExpense
    rw [if_neg (by push_neg; exact ⟨hamt, hcat, hp, hloc⟩), hk]
    dsimp only
    rw [if_neg (lt_irrefl _)]
  · rw [Allocations.get_add_self]
    ring

/-- Witness for C10: spending the entire essentials balance of the
sample ledger is accepted and zeroes the balance. -/
theorem recordExpense_exact_balance_witness :
    recordExpense c3Before (c3Before.allocations.get .essentials)
        "Tiêu dùng thiết yếu" "p" "q" none "d"
      = .ok { c3Before with
          expenses := c3Before.expenses ++
            [{ amount := c3Before.allocations.get .essentials,
               category := "Tiêu dùng thiết yếu", purpose := "p", location := "q",
               date := (none : Option String).getD "d" }],
          initialBudget := c3Before.initialBudget - c3Before.allocations.get .essentials,
          allocations := c3Before.allocations.add .essentials
            (-(c3Before.allocations.get .essentials)) } ∧
    (c3Before.allocations.add .essentials
        (-(c3Before.allocations.get .essentials))).get .essentials = 0 :=
  recordExpense_exact_balance c3Before "Tiêu dùng thiết yếu" "p" "q" .essentials
    none "d" (by simp [categoryKey]) ⟨by norm_num [c3Before], le_refl 0, le_refl 0, le_refl 0, le_refl 0⟩
    (by simp) (by simp)
